import Mathlib

/-!
Verification of the upwind flight-training portal core logic.

The definitions below are a shallow embedding of:
  - the weather normalization pipeline (`formatWinds`, `formatVisibility`,
    `buildSkySummary`, `mapCurrentWeather`, `mapForecastEntry`);
  - the flight-category classifier (`determineFlightCategory`);
  - the forecast-to-daily-summary reduction (`fetchWeatherForecastCore`);
  - the student-minimums evaluator (`parseVisibilityMiles`,
    `parseWindSpeedKts`, `trainingMinimumRules`, `meetsStudentMinimums`);
  - the conflict scan over a student's bookings (`evalLesson`, `scanStep`,
    `runScan`);
  - the advisory reply extraction/parse (`extractJson`,
    `parseRescheduleReply`, `generateRescheduleSuggestions`).

JavaScript numbers are modelled by `ℚ` (the values involved are decimal
literals and the operations are exact on the inputs of interest); `NaN` is
modelled explicitly via `Option` where it can arise (`Number.parseFloat`
on a matched token).  A JavaScript `Date` is modelled by the pair of the
local-time civil day number and the UTC civil day number, the only two
projections the code uses (`differenceInDays` uses local date components
lifted through `Date.UTC`, which is exactly a difference of local civil
day numbers; `toISOString().slice(0, 10)` is the UTC civil date).
Thrown exceptions are modelled by `Option`/`Except` results.
-/

/-- Flight category, `type FlightCategory = 'VFR' | 'MVFR' | 'IFR'`. -/
inductive FlightCategory where
  | VFR
  | MVFR
  | IFR
deriving DecidableEq, Repr

/-- Training level of a student, `Student['trainingLevel']`. -/
inductive TrainingLevel where
  | studentPilot
  | privatePilot
  | instrumentRated
deriving DecidableEq, Repr

/-- Booking status, `FlightBooking['status']`. -/
inductive BookingStatus where
  | scheduled
  | weatherConflict
  | rescheduled
deriving DecidableEq, Repr

/-- A JavaScript `Date`, reduced to the two projections the code consumes:
the local civil day number (what `differenceInDays` computes with via
`Date.UTC(getFullYear(), getMonth(), getDate())`) and the UTC civil day
number (what `toISOString().slice(0, 10)` keys by). -/
structure JsDate where
  localDay : ℤ
  utcDay : ℤ
deriving DecidableEq, Repr

/-- Embedding of `WeatherData` from `types/index.ts`. -/
structure WeatherData where
  temperature : ℚ
  winds : String
  visibility : String
  sky : String
  conditions : FlightCategory
  timestamp : JsDate
deriving DecidableEq, Repr

/-- Departure location of a booking. -/
structure Location where
  lat : ℚ
  lon : ℚ
  name : String
deriving DecidableEq, Repr

/-- Embedding of `FlightBooking` from `types/index.ts`. -/
structure FlightBooking where
  id : String
  studentId : String
  scheduledDate : JsDate
  aircraft : String
  instructor : String
  departureLocation : Location
  status : BookingStatus
deriving DecidableEq, Repr

/-- The slice of `Student` the core logic reads. -/
structure Student where
  trainingLevel : TrainingLevel
deriving DecidableEq, Repr

/-- A raw OpenWeather record/entry (`OpenWeatherEntry`): every sub-field the
mapping functions touch is optional.  A `none` in the `weather` list stands
for a null item or an item without a `description` (both default to
`"conditions"` via `item?.description ?? 'conditions'`). -/
structure OWEntry where
  dt : ℕ
  temp : Option ℚ
  windDeg : Option ℚ
  windSpeed : Option ℚ
  visibility : Option ℚ
  cloudsAll : Option ℚ
  weather : Option (List (Option String))
deriving DecidableEq, Repr

/-- Embedding of `Math.round`: round half toward positive infinity. -/
def jsRound (x : ℚ) : ℤ := ⌊x + 1 / 2⌋

/-- Embedding of `new Date(dt * 1000)` for an epoch-second value, in a locale whose UTC
offset is `tz` seconds. -/
def mkJsDate (tz : ℤ) (dt : ℕ) : JsDate :=
  { localDay := Int.fdiv ((dt : ℤ) + tz) 86400, utcDay := Int.fdiv (dt : ℤ) 86400 }

/-- Embedding of `x.toFixed(1)` for a nonnegative rational: round to one decimal, ties up. -/
def toFixed1Nonneg (x : ℚ) : String :=
  toString (⌊x * 10 + 1 / 2⌋.toNat / 10) ++ "." ++ toString (⌊x * 10 + 1 / 2⌋.toNat % 10)

/-- Embedding of `x.toFixed(1)`; negative values carry a leading minus sign. -/
def toFixed1 (x : ℚ) : String :=
  if x < 0 then "-" ++ toFixed1Nonneg (-x) else toFixed1Nonneg x

/-- Embedding of `formatWinds` (server `index.ts` lines 45–53): missing direction or
speed yields `"Calm"`, otherwise a `"{deg}° at {kts} kts"` summary with
mph-to-knots factor 0.868976 and `Math.round` on both numbers. -/
def formatWinds (deg speedMph : Option ℚ) : String :=
  match deg, speedMph with
  | some d, some s =>
      toString (jsRound d) ++ "° at " ++ toString (jsRound (s * 0.868976)) ++ " kts"
  | _, _ => "Calm"

/-- Embedding of `formatVisibility`: missing visibility yields `"N/A"`, otherwise
meters are divided by 1609.34 and formatted to one decimal with `" sm"`. -/
def formatVisibility (visibilityMeters : Option ℚ) : String :=
  match visibilityMeters with
  | none => "N/A"
  | some m => toFixed1 (m / 1609.34) ++ " sm"

/-- Embedding of `determineFlightCategory` (server `index.ts` lines 64–84). -/
def determineFlightCategory (visibilityMeters cloudCoveragePercent : Option ℚ) :
    FlightCategory :=
  match visibilityMeters with
  | none => .VFR
  | some vm =>
      let visibilitySm := vm / 1609.34
      let coverage := cloudCoveragePercent.getD 0
      if visibilitySm < 3 ∨ 85 ≤ coverage then .IFR
      else if visibilitySm < 5 ∨ 60 ≤ coverage then .MVFR
      else .VFR

/-- Embedding of `description[0].toUpperCase() + description.slice(1)`; `none` models the
`TypeError` thrown when the description is the empty string (there
`description[0]` is `undefined`). -/
def capitalizeFirst (s : String) : Option String :=
  match s.data with
  | [] => none
  | c :: cs => some ⟨c.toUpper :: cs⟩

/-- Embedding of `buildSkySummary`: empty description list yields `"Clear"`, otherwise
each description is capitalized on its first character and the results are
joined with `", "`; `none` models a thrown `TypeError`. -/
def buildSkySummary (weatherDescriptions : List String) : Option String :=
  if weatherDescriptions.isEmpty then some "Clear"
  else (weatherDescriptions.mapM capitalizeFirst).map (String.intercalate ", ")

/-- The description list `(payload.weather ?? []).map(item => item?.description ?? 'conditions')`. -/
def descriptionList (e : OWEntry) : List String :=
  (e.weather.getD []).map (fun d => d.getD "conditions")

/-- Embedding of `mapCurrentWeather` (server `index.ts` lines 96–112); `none` models the
exception propagated out of `buildSkySummary`. -/
def mapCurrentWeather (tz : ℤ) (payload : OWEntry) : Option WeatherData :=
  (buildSkySummary (descriptionList payload)).map fun sky =>
    { temperature := payload.temp.getD 0
      winds := formatWinds payload.windDeg payload.windSpeed
      visibility := formatVisibility payload.visibility
      sky := sky
      conditions := determineFlightCategory payload.visibility payload.cloudsAll
      timestamp := mkJsDate tz payload.dt }

/-- Embedding of `mapForecastEntry` (`weatherService.ts` lines 117–133); the body is the
same field-by-field mapping as `mapCurrentWeather`. -/
def mapForecastEntry (tz : ℤ) (entry : OWEntry) : Option WeatherData :=
  mapCurrentWeather tz entry

/-- The static per-level minimums table `trainingMinimumRules`. -/
structure MinimumsRule where
  minVisibility : ℚ
  maxWind : ℚ
  allowedConditions : List FlightCategory
deriving DecidableEq, Repr

/-- Embedding of `trainingMinimumRules` (`TrainingStatusCard.tsx` lines 187–206). -/
def trainingMinimumRules : TrainingLevel → MinimumsRule
  | .studentPilot => { minVisibility := 5, maxWind := 15, allowedConditions := [.VFR] }
  | .privatePilot => { minVisibility := 3, maxWind := 20, allowedConditions := [.VFR, .MVFR] }
  | .instrumentRated =>
      { minVisibility := 1, maxWind := 25, allowedConditions := [.VFR, .MVFR, .IFR] }

/-- Character class of the regex `[\d.]`. -/
def isDigitDot (c : Char) : Bool := c.isDigit || c = '.'

/-- First maximal run of `[\d.]` characters, the capture of `/([\d.]+)/`. -/
def firstNumToken : List Char → Option (List Char)
  | [] => none
  | c :: cs =>
      if isDigitDot c then some (c :: cs.takeWhile isDigitDot)
      else firstNumToken cs

/-- Value of a digit string. -/
def digitsVal (ds : List Char) : ℕ :=
  ds.foldl (fun a c => a * 10 + (c.toNat - 48)) 0

/-- Embedding of `Number.parseFloat` on a token made of digits and dots: the longest
prefix that is a valid decimal literal; `none` models `NaN` (token with no
digit before the second dot, e.g. `"."` or `"..5"`). -/
def parseFloatToken (t : List Char) : Option ℚ :=
  let ip := t.takeWhile Char.isDigit
  let rest := t.dropWhile Char.isDigit
  if ip.isEmpty then
    match rest with
    | '.' :: r2 =>
        let fp := r2.takeWhile Char.isDigit
        if fp.isEmpty then none
        else some ((digitsVal fp : ℚ) / ((10 ^ fp.length : ℕ) : ℚ))
    | _ => none
  else
    match rest with
    | '.' :: r2 =>
        let fp := r2.takeWhile Char.isDigit
        some ((digitsVal ip : ℚ) + (digitsVal fp : ℚ) / ((10 ^ fp.length : ℕ) : ℚ))
    | _ => some (digitsVal ip : ℚ)

/-- Embedding of `parseVisibilityMiles` (`TrainingStatusCard.tsx` lines 174–177):
`value.match(/([\d.]+)/)` then `Number.parseFloat` on the capture.  Outer
`none` = no regex match (`undefined`); `some none` = `NaN`. -/
def parseVisibilityMiles (value : String) : Option (Option ℚ) :=
  (firstNumToken value.data).map parseFloatToken

/-- Embedding of `p.isPrefixOf l` on raw char lists, by explicit recursion. -/
def startsWithList : List Char → List Char → Bool
  | [], _ => true
  | _ :: _, [] => false
  | p :: ps, c :: cs => p == c && startsWithList ps cs

/-- Whether `pat` occurs as a contiguous sublist of `l`. -/
def containsSeq (pat : List Char) : List Char → Bool
  | [] => pat.isEmpty
  | c :: cs => startsWithList pat (c :: cs) || containsSeq pat cs

/-- Whether `kts` (case-insensitively) follows after optional whitespace:
the `\s*kts` tail of the wind regex. -/
def ktsFollows (rest : List Char) : Bool :=
  startsWithList ['k', 't', 's'] ((rest.dropWhile Char.isWhitespace).map Char.toLower)

/-- Leftmost capture of `/([\d.]+)\s*kts/i`: the first maximal `[\d.]` run
followed, after optional whitespace, by `kts`.  (A shorter, backtracked
token inside a run can never match, since the character after it is a
digit or dot, not `k`; so only whole runs are candidates.) -/
def findWindToken : List Char → Option (List Char)
  | [] => none
  | c :: cs =>
      if isDigitDot c ∧ ktsFollows (cs.dropWhile isDigitDot) then
        some (c :: cs.takeWhile isDigitDot)
      else findWindToken cs

/-- Embedding of `parseWindSpeedKts` (`TrainingStatusCard.tsx` lines 179–185):
`/calm/i.test(value)` yields 0; otherwise parse the capture of
`/([\d.]+)\s*kts/i`.  Outer `none` = no match; `some none` = `NaN`. -/
def parseWindSpeedKts (value : String) : Option (Option ℚ) :=
  if containsSeq ['c', 'a', 'l', 'm'] (value.data.map Char.toLower) then some (some 0)
  else (findWindToken value.data).map parseFloatToken

/-- Embedding of `meetsStudentMinimums` (`TrainingStatusCard.tsx` lines 208–218).  The
`== null` guards pass only for a missing regex match; a `NaN` parse result
is non-null and fails both `>=` and `<=`. -/
def meetsStudentMinimums (student : Student) (weather : WeatherData) : Bool :=
  let rules := trainingMinimumRules student.trainingLevel
  let visibilityOk :=
    match parseVisibilityMiles weather.visibility with
    | none => true
    | some none => false
    | some (some v) => decide (rules.minVisibility ≤ v)
  let windOk :=
    match parseWindSpeedKts weather.winds with
    | none => true
    | some none => false
    | some (some w) => decide (w ≤ rules.maxWind)
  let conditionsOk := decide (weather.conditions ∈ rules.allowedConditions)
  visibilityOk && windOk && conditionsOk

/-- Embedding of `differenceInDays` (`TrainingStatusCard.tsx` lines 168–172): the UTC
timestamps of the two local civil dates differ by an exact multiple of a
day, so the floored quotient is the difference of local civil day numbers. -/
def differenceInDays (fromDate toDate : JsDate) : ℤ :=
  toDate.localDay - fromDate.localDay

/-- Embedding of `getDateKey`: `date.toISOString().slice(0, 10)`, the UTC civil date. -/
def getDateKey (date : JsDate) : ℤ := date.utcDay

/-- Embedding of `LOCATION_KEY`: the `"{lat},{lon}"` key, modelled as the coordinate pair
(the string form is injective on the coordinates). -/
def locationKey (location : Location) : ℚ × ℚ := (location.lat, location.lon)

/-- The status the conflict scan assigns to a non-rescheduled lesson
(`TrainingStatusCard.tsx` lines 394–414): out-of-window lessons get
`scheduled`; in-window lessons get `weather-conflict` exactly when the
first forecast entry matching the lesson's UTC date fails the student's
minimums.  Does not depend on the lesson's current status. -/
def lessonNextStatus (student : Student) (forecastMap : ℚ × ℚ → Option (List WeatherData))
    (today : JsDate) (lesson : FlightBooking) : BookingStatus :=
  let diffDays := differenceInDays today lesson.scheduledDate
  if diffDays < 0 ∨ 7 ≤ diffDays then .scheduled
  else
    let dailyForecast := (forecastMap (locationKey lesson.departureLocation)).getD []
    let targetDateKey := getDateKey lesson.scheduledDate
    match dailyForecast.find? (fun entry => getDateKey entry.timestamp == targetDateKey) with
    | some forecastForDay =>
        if meetsStudentMinimums student forecastForDay then .scheduled else .weatherConflict
    | none => .scheduled

/-- One lesson's update inside the `setLessonState` callback of
`evaluateConflicts` (`TrainingStatusCard.tsx` lines 389–421): rescheduled
lessons are returned as-is; otherwise the lesson object is replaced only
when its status actually changes (the source returns the original object
unchanged in the other branches). -/
def evalLesson (student : Student) (forecastMap : ℚ × ℚ → Option (List WeatherData))
    (today : JsDate) (lesson : FlightBooking) : FlightBooking :=
  if lesson.status = .rescheduled then lesson
  else
    let nextStatus := lessonNextStatus student forecastMap today lesson
    if lesson.status = nextStatus then lesson else { lesson with status := nextStatus }

/-- The whole `setLessonState` update of `evaluateConflicts`: map every
lesson through `evalLesson` and return the previous array itself when no
status changed (`return changed ? next : prev`). -/
def scanStep (student : Student) (forecastMap : ℚ × ℚ → Option (List WeatherData))
    (today : JsDate) (prev : List FlightBooking) : List FlightBooking :=
  let next := prev.map (evalLesson student forecastMap today)
  if next = prev then prev else next

/-- First-occurrence deduplication, the key order of a JavaScript `Map`
built by repeated `set`. -/
def dedupFirst {α : Type} [DecidableEq α] (l : List α) : List α :=
  l.foldl (fun acc k => if k ∈ acc then acc else acc ++ [k]) []

/-- The `relevantLessons` filter (`TrainingStatusCard.tsx` lines 334–340). -/
def relevantLessons (today : JsDate) (lessons : List FlightBooking) : List FlightBooking :=
  lessons.filter fun lesson =>
    lesson.status ≠ .rescheduled ∧
      0 ≤ differenceInDays today lesson.scheduledDate ∧
        differenceInDays today lesson.scheduledDate < 7

/-- Embedding of `uniqueLocations` (`TrainingStatusCard.tsx` lines 362–369), reduced to
the location keys actually used for fetching and lookup. -/
def uniqueLocationKeys (lessons : List FlightBooking) : List (ℚ × ℚ) :=
  dedupFirst (lessons.map fun lesson => locationKey lesson.departureLocation)

/-- The conflict-scan effect (`TrainingStatusCard.tsx` lines 328–435).
`fetch loc = none` models a rejected forecast fetch; `fetchWeatherForecast`
catches it and resolves with `[]`, so `Promise.all` never rejects and the
forecast map holds `[]` for the failed location. -/
def runScan (student : Student) (fetch : ℚ × ℚ → Option (List WeatherData))
    (today : JsDate) (prev : List FlightBooking) : List FlightBooking :=
  let relevant := relevantLessons today prev
  if relevant.isEmpty then
    let next := prev.map fun lesson =>
      if lesson.status = .rescheduled then lesson
      else if lesson.status ≠ .scheduled then { lesson with status := .scheduled }
      else lesson
    if next = prev then prev else next
  else
    let locs := uniqueLocationKeys relevant
    let forecastMap : ℚ × ℚ → Option (List WeatherData) := fun k =>
      if k ∈ locs then some ((fetch k).getD []) else none
    scanStep student forecastMap today prev

/-- UTC calendar-day number of a raw entry:
`new Date(entry.dt * 1000).toISOString().slice(0, 10)` as a day count. -/
def dayOf (e : OWEntry) : ℕ := e.dt / 86400

/-- Embedding of `getUTCHours()` of a raw entry's timestamp. -/
def hourOf (e : OWEntry) : ℕ := e.dt % 86400 / 3600

/-- Insertion into the `grouped` map of `fetchWeatherForecast`: append to an
existing key's bucket, else append a fresh bucket at the end (JavaScript
`Map` preserves first-insertion key order). -/
def groupInsert (k : ℕ) (e : OWEntry) :
    List (ℕ × List OWEntry) → List (ℕ × List OWEntry)
  | [] => [(k, [e])]
  | (k', es) :: rest =>
      if k' = k then (k', es ++ [e]) :: rest else (k', es) :: groupInsert k e rest

/-- The `grouped` map after the grouping loop of `fetchWeatherForecast`
(`weatherService.ts` lines 174–182). -/
def groupByDay (entries : List OWEntry) : List (ℕ × List OWEntry) :=
  entries.foldl (fun acc e => groupInsert (dayOf e) e acc) []

/-- Afternoon-window test of the representative-entry selection:
`hour >= 15 && hour <= 21`. -/
def inAfternoonWindow (e : OWEntry) : Bool := 15 ≤ hourOf e && hourOf e ≤ 21

/-- Fallback entry used when indexing with `entries[Math.floor(entries.length / 2)]`
(every bucket built by `groupInsert` is nonempty, so the default is never
reached on buckets produced by `groupByDay`). -/
def defaultOWEntry : OWEntry :=
  { dt := 0, temp := none, windDeg := none, windSpeed := none, visibility := none,
    cloudsAll := none, weather := none }

/-- Embedding of `middayEntry` selection (`weatherService.ts` lines 188–192): first entry
in the afternoon UTC window, else the floor-midpoint entry. -/
def pickRepresentative (dayEntries : List OWEntry) : OWEntry :=
  (dayEntries.find? inAfternoonWindow).getD (dayEntries.getD (dayEntries.length / 2) defaultOWEntry)

/-- Embedding of `Math.min(Math.max(days, 1), 7)`. -/
def clampDays (days : ℤ) : ℕ := (min (max days 1) 7).toNat

/-- The summary-emitting loop of `fetchWeatherForecast` (lines 187–199):
push the normalized representative of each bucket in key order, stopping as
soon as `maxDays` summaries exist; a `none` from normalization models the
`TypeError` that would propagate to the surrounding catch. -/
def emitLoop (tz : ℤ) (maxDays : ℕ) :
    List (ℕ × List OWEntry) → List WeatherData → Option (List WeatherData)
  | [], acc => some acc
  | (_, dayEntries) :: rest, acc =>
      match mapForecastEntry tz (pickRepresentative dayEntries) with
      | none => none
      | some w =>
          if maxDays ≤ (acc ++ [w]).length then some (acc ++ [w])
          else emitLoop tz maxDays rest (acc ++ [w])

/-- The pure core of `fetchWeatherForecast` (`weatherService.ts` lines
172–201): group raw entries by UTC date, pick one representative per date,
normalize it, and emit at most `clampDays days` summaries. -/
def fetchWeatherForecastCore (tz : ℤ) (entries : List OWEntry) (days : ℤ) :
    Option (List WeatherData) :=
  emitLoop tz (clampDays days) (groupByDay entries) []

/-- Embedding of `RescheduleOption.conditions` from `types/index.ts`. -/
structure RescheduleConditions where
  visibility : String
  winds : String
  sky : String
  temperature : Option String
deriving DecidableEq, Repr

/-- Embedding of `RescheduleOption` from `types/index.ts`. -/
structure RescheduleOption where
  dateTime : String
  reasoning : String
  conditions : RescheduleConditions
  tradeoffs : Option String
  benefits : Option String
deriving DecidableEq, Repr

/-- The backend reply as `generateRescheduleSuggestions` sees it:
`response.ok` plus the optional `suggestions` array of the JSON body
(`none` when `Array.isArray(data.suggestions)` is false). -/
structure BackendReply where
  ok : Bool
  suggestions : Option (List RescheduleOption)
deriving DecidableEq, Repr

/-- Embedding of `generateRescheduleSuggestions` (`claudeService.ts` lines 21–56),
abstracted over the outcome of the `fetch`: `none` models a network-level
rejection.  The function catches every failure and resolves with `[]`. -/
def generateRescheduleSuggestions (fetchResult : Option BackendReply) :
    List RescheduleOption :=
  match fetchResult with
  | none => []
  | some response =>
      if response.ok then response.suggestions.getD [] else []

/-- The backtick character. -/
def btick : Char := Char.ofNat 96

/-- Find the first occurrence of a triple backtick; returns the characters
before it and the characters after it. -/
def findTicks : List Char → Option (List Char × List Char)
  | a :: b :: c :: rest =>
      if a = btick ∧ b = btick ∧ c = btick then some ([], rest)
      else (findTicks (b :: c :: rest)).map fun p => (a :: p.1, p.2)
  | _ => none

/-- Embedding of `str.trim()`. -/
def trimChars (l : List Char) : List Char :=
  ((l.dropWhile Char.isWhitespace).reverse.dropWhile Char.isWhitespace).reverse

/-- The capture of `/```(?:json)?\s*([\s\S]*?)```/i` when it matches: after
the first opening fence, optionally consume a case-insensitive `json` tag,
skip whitespace greedily, and capture lazily up to the next triple
backtick.  If no closing fence exists after the first opening fence
(neither the tag nor whitespace can contain a backtick), no later opening
can complete a match either, so the regex fails. -/
def fencedCapture (l : List Char) : Option (List Char) :=
  match findTicks l with
  | none => none
  | some (_, afterOpen) =>
      let afterTag :=
        if startsWithList ['j', 's', 'o', 'n'] ((afterOpen.take 4).map Char.toLower) then
          afterOpen.drop 4
        else afterOpen
      let afterWs := afterTag.dropWhile Char.isWhitespace
      (findTicks afterWs).map fun p => p.1

/-- Embedding of `extractJson` (server `index.ts` lines 273–279): the trimmed fenced
capture when the regex matches with a truthy (nonempty) capture, else the
whole trimmed payload. -/
def extractJson (payload : String) : String :=
  match fencedCapture payload.data with
  | some content =>
      if content.isEmpty then ⟨trimChars payload.data⟩ else ⟨trimChars content⟩
  | none => ⟨trimChars payload.data⟩

/-- Embedding of `textContent.text.slice(0, 200)`. -/
def jsSlice200 (s : String) : String := ⟨s.data.take 200⟩

/-- The parse step of the `/api/reschedule` handler (server `index.ts`
lines 281–289), abstracted over `JSON.parse` (a platform primitive): on
parse failure the handler throws a descriptive error carrying a 200-character
excerpt of the raw reply text. -/
def parseRescheduleReply {α : Type} (jsonParse : String → Option α) (replyText : String) :
    Except String α :=
  match jsonParse (extractJson replyText) with
  | some suggestions => .ok suggestions
  | none =>
      .error ("Claude response was not valid JSON. Received: " ++ jsSlice200 replyText ++ "...")

/-! ## Spec-side definitions (written from the spec's words, for comparison) -/

/-- Spec-side classifier from C2's words: VFR when visibility is unknown;
IFR when miles (meters ÷ 1609.34) < 3 or coverage ≥ 85; MVFR when miles < 5
or coverage ≥ 60; else VFR; coverage defaults to 0. -/
def classifySpecC2 (visibilityMeters cloudCoveragePercent : Option ℚ) : FlightCategory :=
  match visibilityMeters with
  | none => .VFR
  | some vm =>
      if vm / 1609.34 < 3 ∨ 85 ≤ cloudCoveragePercent.getD 0 then .IFR
      else if vm / 1609.34 < 5 ∨ 60 ≤ cloudCoveragePercent.getD 0 then .MVFR
      else .VFR

/-- Spec-side per-word-initial capitalization (C9's words): uppercase the
first character and every character following a space. -/
def capWordsAux : Bool → List Char → List Char
  | _, [] => []
  | atWordStart, c :: cs => (if atWordStart then c.toUpper else c) :: capWordsAux (c = ' ') cs

/-- Capitalize each word-initial character of a string. -/
def capitalizeWordInitials (s : String) : String := ⟨capWordsAux true s.data⟩

/-- Spec-side sky summary per C9's words: capitalize per-word-initial and
join with `", "`. -/
def skySummarySpecC9 (descriptions : List String) : String :=
  String.intercalate ", " (descriptions.map capitalizeWordInitials)

/-- Total first-character capitalization (what the code actually computes
on nonempty descriptions). -/
def capitalizeFirstTotal (s : String) : String :=
  match s.data with
  | [] => ""
  | c :: cs => ⟨c.toUpper :: cs⟩

/-- Claim-side C1 field checks, reading "parseable" as "yields a number":
each numeric sub-check constrains only a successfully parsed number, so an
unparsable field (no token, or a token denoting no number) passes it. -/
def claimFieldChecksC1 (student : Student) (weather : WeatherData) : Prop :=
  (∀ v : ℚ, parseVisibilityMiles weather.visibility = some (some v) →
      (trainingMinimumRules student.trainingLevel).minVisibility ≤ v) ∧
    (∀ w : ℚ, parseWindSpeedKts weather.winds = some (some w) →
        w ≤ (trainingMinimumRules student.trainingLevel).maxWind) ∧
      weather.conditions ∈ (trainingMinimumRules student.trainingLevel).allowedConditions

/-- Amended C1 field checks: a missing numeric token passes its sub-check,
but a token that denotes no number (only dots, parsed as `NaN`) fails it,
because `NaN` is not `null` and fails every comparison. -/
def amendedChecksC1 (student : Student) (weather : WeatherData) : Prop :=
  (match parseVisibilityMiles weather.visibility with
    | none => True
    | some none => False
    | some (some v) => (trainingMinimumRules student.trainingLevel).minVisibility ≤ v) ∧
    (match parseWindSpeedKts weather.winds with
      | none => True
      | some none => False
      | some (some w) => w ≤ (trainingMinimumRules student.trainingLevel).maxWind) ∧
      weather.conditions ∈ (trainingMinimumRules student.trainingLevel).allowedConditions

/-- A reading whose visibility summary is the bare token `"."`: the regex
`/([\d.]+)/` matches it, `Number.parseFloat` yields `NaN`. -/
def c1Reading : WeatherData :=
  { temperature := 0, winds := "Calm", visibility := ".", sky := "Clear",
    conditions := .VFR, timestamp := ⟨0, 0⟩ }

/-- Forecast reading used by the C3 witness: IFR, 25 kt winds, 2 sm. -/
def c3Weather : WeatherData :=
  { temperature := 40, winds := "270° at 25 kts", visibility := "2 sm",
    sky := "Overcast Clouds", conditions := .IFR, timestamp := ⟨2, 2⟩ }

/-- Booking used by the C3 and C4 witnesses. -/
def c3Booking : FlightBooking :=
  { id := "b1", studentId := "s1", scheduledDate := ⟨2, 2⟩, aircraft := "C172",
    instructor := "Avery", departureLocation := ⟨44.827, -93.457, "FCM"⟩,
    status := .scheduled }

/-- Booking used by the C7 counterexample and witness: in-window,
currently flagged as a weather conflict. -/
def c7Booking : FlightBooking :=
  { id := "b2", studentId := "s1", scheduledDate := ⟨2, 2⟩, aircraft := "C172",
    instructor := "Avery", departureLocation := ⟨44, -93, "FCM"⟩,
    status := .weatherConflict }

/-- The per-location forecast map the scan effect builds: a fetched value
for every unique in-window location (with a failed fetch degraded to `[]`
by `fetchWeatherForecast`'s catch), absent elsewhere. -/
def scanForecastMap (fetch : ℚ × ℚ → Option (List WeatherData)) (today : JsDate)
    (prev : List FlightBooking) : ℚ × ℚ → Option (List WeatherData) := fun k =>
  if k ∈ uniqueLocationKeys (relevantLessons today prev) then some ((fetch k).getD [])
  else none

/-- Spec-side summary (C5's words): group entries by UTC date preserving
first-occurrence order, pick each date's representative, normalize, and
emit at most `clampDays days` readings in date order. -/
def specSummarize (tz : ℤ) (entries : List OWEntry) (days : ℤ) : Option (List WeatherData) :=
  (((dedupFirst (entries.map dayOf)).map fun k =>
      pickRepresentative (entries.filter fun e => dayOf e == k)).take
    (clampDays days)).mapM (mapForecastEntry tz)

/-- A raw entry carrying only a timestamp (all optional fields absent). -/
def mkOWEntry (t : ℕ) : OWEntry :=
  { dt := t, temp := none, windDeg := none, windSpeed := none, visibility := none,
    cloudsAll := none, weather := none }

/-- One UTC day of forecast entries at 3-hour increments (8 entries, hours
0, 3, …, 21), for day number `d`. -/
def weekDayRun (d : ℕ) : List OWEntry :=
  (List.range 8).map fun j => mkOWEntry (d * 86400 + j * 10800)

/-- A 7-day, 8-entries-per-day forecast input starting at day `d0`. -/
def mkWeekEntries (d0 : ℕ) : List OWEntry :=
  weekDayRun d0 ++ weekDayRun (d0 + 1) ++ weekDayRun (d0 + 2) ++ weekDayRun (d0 + 3) ++
    weekDayRun (d0 + 4) ++ weekDayRun (d0 + 5) ++ weekDayRun (d0 + 6)

/-! ## Theorems -/

/-- C10: the static minimums rule table satisfies the inclusion chain
`allowedCategories(StudentPilot) ⊆ allowedCategories(PrivatePilot) ⊆
allowedCategories(InstrumentRated)`: the set of allowed flight categories
grows weakly as the training level's rating increases. -/
theorem c10_allowed_categories_monotone :
    (trainingMinimumRules .studentPilot).allowedConditions ⊆
        (trainingMinimumRules .privatePilot).allowedConditions ∧
      (trainingMinimumRules .privatePilot).allowedConditions ⊆
        (trainingMinimumRules .instrumentRated).allowedConditions := by
  decide

/-- C2: `determineFlightCategory` agrees everywhere with the spec-side
rule order (first match wins): VFR for every coverage when visibility is
unknown; IFR when miles < 3 or coverage ≥ 85; MVFR when miles < 5 or
coverage ≥ 60; else VFR, coverage defaulting to 0 when absent.  Boundary
values resolve to the lower category: exactly 3 statute miles with
coverage < 85 yields MVFR, and exactly 60 % coverage with at least
5 statute miles yields MVFR. -/
theorem c2_determine_flight_category :
    (∀ vm cc, determineFlightCategory vm cc = classifySpecC2 vm cc) ∧
      (∀ cc, determineFlightCategory none cc = .VFR) ∧
        (∀ vm, determineFlightCategory (some vm) none =
            determineFlightCategory (some vm) (some 0)) ∧
          (∀ cc : ℚ, cc < 85 →
              determineFlightCategory (some (3 * 1609.34)) (some cc) = .MVFR) ∧
            (∀ vm : ℚ, 5 * 1609.34 ≤ vm →
                determineFlightCategory (some vm) (some 60) = .MVFR) := by
  refine ⟨fun vm cc => ?_, fun cc => rfl, fun vm => rfl, fun cc hcc => ?_, fun vm hvm => ?_⟩
  · cases vm <;> rfl
  · have h3 : ¬((3 * 1609.34 : ℚ) / 1609.34 < 3 ∨ (85 : ℚ) ≤ cc) := by
      push_neg
      constructor
      · norm_num
      · linarith
    have h5 : (3 * 1609.34 : ℚ) / 1609.34 < 5 ∨ (60 : ℚ) ≤ cc := by
      left
      norm_num
    simp only [determineFlightCategory, Option.getD_some, if_neg h3, if_pos h5]
  · have hge : (5 : ℚ) ≤ vm / 1609.34 := by
      rw [le_div_iff₀ (by norm_num : (0 : ℚ) < 1609.34)]
      linarith
    have h3 : ¬(vm / 1609.34 < 3 ∨ (85 : ℚ) ≤ (60 : ℚ)) := by
      push_neg
      constructor
      · linarith
      · norm_num
    have h5 : vm / 1609.34 < 5 ∨ (60 : ℚ) ≤ (60 : ℚ) := Or.inr le_rfl
    simp only [determineFlightCategory, Option.getD_some, if_neg h3, if_pos h5]

/-- Witness for C2: the boundary conjuncts applied at concrete inputs
(coverage 50 below 85, and visibility exactly 5 statute miles). -/
theorem c2_witness :
    determineFlightCategory (some (3 * 1609.34)) (some 50) = .MVFR ∧
      determineFlightCategory (some (5 * 1609.34)) (some 60) = .MVFR :=
  ⟨c2_determine_flight_category.2.2.2.1 50 (by norm_num),
    c2_determine_flight_category.2.2.2.2 (5 * 1609.34) (by norm_num)⟩

/-- On a list of nonempty descriptions, `mapM capitalizeFirst` succeeds and
computes the total first-character capitalization pointwise. -/
theorem mapM_capitalizeFirst_eq (ds : List String) (h : ∀ d ∈ ds, d ≠ "") :
    ds.mapM capitalizeFirst = some (ds.map capitalizeFirstTotal) := by
  induction ds with
  | nil => rfl
  | cons d ds ih =>
      have hd : d ≠ "" := h d (List.mem_cons_self d ds)
      have hcap : capitalizeFirst d = some (capitalizeFirstTotal d) := by
        cases d with
        | mk data =>
            cases data with
            | nil => exact absurd rfl hd
            | cons c cs => rfl
      rw [List.mapM_cons, hcap, ih fun x hx => h x (List.mem_cons_of_mem d hx)]
      rfl

/-- C9 counterexample: the code capitalizes only the first character of a
description, not every word initial; on `"light rain"` it produces
`"Light rain"`, while the claim's per-word-initial capitalization gives
`"Light Rain"`. -/
theorem c9_counterexample :
    buildSkySummary ["light rain"] = some "Light rain" ∧
      skySummarySpecC9 ["light rain"] = "Light Rain" ∧
        ("Light rain" : String) ≠ "Light Rain" := by
  refine ⟨rfl, rfl, by decide⟩

/-- C9 (amended): missing wind yields `"Calm"`; missing visibility yields
`"N/A"`; condition descriptions are capitalized on their first character
(not per word) and joined with `", "`, with `"Clear"` when none are
present; wind speed converts from mph to knots by the factor 0.868976 with
`Math.round` (10.0 mph → 9 kts) and direction rounds to the nearest degree
(272.4 → 272); visibility converts from meters to statute miles by
dividing by 1609.34, formatted to one decimal with suffix `" sm"`
(8046.7 m → `"5.0 sm"`). -/
theorem c9_normalizer_fields :
    (∀ s, formatWinds none s = "Calm") ∧
      (∀ d, formatWinds d none = "Calm") ∧
        formatVisibility none = "N/A" ∧
          buildSkySummary [] = some "Clear" ∧
            (∀ ds : List String, (∀ d ∈ ds, d ≠ "") → ds ≠ [] →
                buildSkySummary ds =
                  some (String.intercalate ", " (ds.map capitalizeFirstTotal))) ∧
              formatWinds (some (272.4 : ℚ)) (some 10) = "272° at 9 kts" ∧
                formatVisibility (some (8046.7 : ℚ)) = "5.0 sm" := by
  have hdeg : jsRound (272.4 : ℚ) = 272 := by norm_num [jsRound]
  have hkts : jsRound ((10 : ℚ) * 0.868976) = 9 := by norm_num [jsRound]
  have hneg : ¬((8046.7 : ℚ) / 1609.34 < 0) := by norm_num
  have hfl : ⌊(8046.7 : ℚ) / 1609.34 * 10 + 1 / 2⌋ = (50 : ℤ) := by norm_num
  refine ⟨fun s => by cases s <;> rfl, fun d => by cases d <;> rfl, rfl, rfl,
    fun ds h hne => ?_, ?_, ?_⟩
  · have hne2 : ds.isEmpty = false := by
      cases ds with
      | nil => exact absurd rfl hne
      | cons a l => rfl
    rw [buildSkySummary, hne2, if_neg (by simp), mapM_capitalizeFirst_eq ds h]
    rfl
  · show toString (jsRound (272.4 : ℚ)) ++ "° at " ++
        toString (jsRound ((10 : ℚ) * 0.868976)) ++ " kts" = "272° at 9 kts"
    rw [hdeg, hkts]
    decide
  · show toFixed1 ((8046.7 : ℚ) / 1609.34) ++ " sm" = "5.0 sm"
    rw [toFixed1, if_neg hneg, toFixed1Nonneg, hfl]
    decide

/-- Witness for C9: the capitalization/join conjunct applied to a concrete
two-description list. -/
theorem c9_witness :
    buildSkySummary ["few clouds", "mist"] =
      some (String.intercalate ", " (["few clouds", "mist"].map capitalizeFirstTotal)) :=
  c9_normalizer_fields.2.2.2.2.1 ["few clouds", "mist"] (by decide) (by decide)

/-- C8 counterexample: `mapCurrentWeather` is not total.  A raw record
whose condition list contains an item with an empty-string description
makes `buildSkySummary` evaluate `description[0].toUpperCase()` on
`undefined`, throwing a `TypeError` (modelled as `none`): the empty string
is not nullish, so `item?.description ?? 'conditions'` keeps it. -/
theorem c8_counterexample :
    mapCurrentWeather 0
        { dt := 0, temp := none, windDeg := none, windSpeed := none,
          visibility := none, cloudsAll := none, weather := some [some ""] } = none := by
  rfl

/-- C8 (amended): `mapCurrentWeather` never throws on raw records whose
present condition descriptions are nonempty strings, and every absent
optional sub-field degrades to its documented default (temperature 0, wind
`"Calm"`, visibility `"N/A"`, coverage 0 hence category VFR, sky
`"Clear"`); a present empty-string description, however, throws. -/
theorem c8_normalizer_total :
    (∀ (tz : ℤ) (e : OWEntry), (∀ d ∈ e.weather.getD [], d ≠ some "") →
        (mapCurrentWeather tz e).isSome = true) ∧
      (∀ (tz : ℤ) (dt : ℕ),
          mapCurrentWeather tz
              { dt := dt, temp := none, windDeg := none, windSpeed := none,
                visibility := none, cloudsAll := none, weather := none } =
            some { temperature := 0, winds := "Calm", visibility := "N/A",
                   sky := "Clear", conditions := .VFR, timestamp := mkJsDate tz dt }) := by
  constructor
  · intro tz e h
    have hd : ∀ d ∈ descriptionList e, d ≠ "" := by
      intro d hd
      rw [descriptionList] at hd
      obtain ⟨o, ho, rfl⟩ := List.mem_map.mp hd
      cases o with
      | none => simp
      | some s =>
          intro hs
          exact h (some s) ho (by simpa using hs)
    rw [mapCurrentWeather]
    cases hds : (descriptionList e).isEmpty with
    | true => rw [buildSkySummary, hds, if_pos rfl]; rfl
    | false =>
        rw [buildSkySummary, hds, if_neg (by simp), mapM_capitalizeFirst_eq _ hd]
        rfl
  · intro tz dt
    rfl

/-- Witness for C8: the totality conjunct applied to a concrete record with
a nonempty description. -/
theorem c8_witness :
    (mapCurrentWeather 0
        { dt := 7, temp := some 61, windDeg := some 180, windSpeed := some 5,
          visibility := some 10000, cloudsAll := some 20,
          weather := some [some "mist"] }).isSome = true :=
  c8_normalizer_total.1 0 _ (by decide)

/-- C6 counterexample: when the provider is unreachable (the `fetch`
rejects, modelled by `none`), `generateRescheduleSuggestions` catches the
failure and resolves with the empty suggestion list — its result type has
no error channel at all — contradicting the claim that it fails by
propagating a descriptive error rather than returning an empty list.  The
same happens when the backend reports failure (`response.ok` false). -/
theorem c6_counterexample :
    generateRescheduleSuggestions none = [] ∧
      (∀ s, generateRescheduleSuggestions (some { ok := false, suggestions := s }) = []) :=
  ⟨rfl, fun _ => rfl⟩

/-- C6 (amended): the descriptive-error behaviour lives in the backend
`/api/reschedule` handler, not in the frontend `generateRescheduleSuggestions`.
When the extracted content (the fenced block's body when present, else the
trimmed reply) does not parse, the handler throws an error embedding a
truncated excerpt of at most 200 characters of the reply; the frontend
converts every failure into an empty suggestion list. -/
theorem c6_parse_error_propagation :
    ∀ {α : Type} (jsonParse : String → Option α) (replyText : String),
      jsonParse (extractJson replyText) = none →
        parseRescheduleReply jsonParse replyText =
            .error ("Claude response was not valid JSON. Received: " ++
              jsSlice200 replyText ++ "...") ∧
          (jsSlice200 replyText).data.length ≤ 200 ∧
            extractJson "```json\n[1, 2]\n```" = "[1, 2]" ∧
              extractJson "  [1, 2]  " = "[1, 2]" ∧
                generateRescheduleSuggestions none = [] := by
  intro α jsonParse replyText h
  refine ⟨?_, ?_, rfl, rfl, rfl⟩
  · rw [parseRescheduleReply, h]
  · show (replyText.data.take 200).length ≤ 200
    rw [List.length_take]
    exact min_le_left _ _

/-- Witness for C6: the amended theorem applied to a parser that rejects
everything and a concrete malformed reply. -/
theorem c6_witness :
    parseRescheduleReply (fun _ => (none : Option Unit)) "I cannot help with that" =
        .error ("Claude response was not valid JSON. Received: " ++
          jsSlice200 "I cannot help with that" ++ "...") ∧
      (jsSlice200 "I cannot help with that").data.length ≤ 200 ∧
        extractJson "```json\n[1, 2]\n```" = "[1, 2]" ∧
          extractJson "  [1, 2]  " = "[1, 2]" ∧
            generateRescheduleSuggestions none = [] :=
  c6_parse_error_propagation (fun _ => (none : Option Unit)) "I cannot help with that" rfl

/-- C1 counterexample: a reading whose visibility summary is `"."` is
unparsable as a number, so the claim's fail-open rule says the visibility
sub-check passes and the reading (calm wind, VFR, allowed category) meets
student-pilot minimums; but the code's regex matches the token `"."`,
`Number.parseFloat` yields `NaN`, the `== null` guard does not fire and
`NaN >= 5` is false, so `meetsStudentMinimums` rejects the reading. -/
theorem c1_counterexample :
    claimFieldChecksC1 { trainingLevel := .studentPilot } c1Reading ∧
      meetsStudentMinimums { trainingLevel := .studentPilot } c1Reading = false := by
  refine ⟨⟨?_, ?_, ?_⟩, ?_⟩
  · intro v h
    have hp : parseVisibilityMiles c1Reading.visibility = some none := rfl
    rw [hp] at h
    simp at h
  · intro w h
    have hp : parseWindSpeedKts c1Reading.winds = some (some 0) := rfl
    rw [hp] at h
    have hw : w = 0 := by simpa using h.symm
    rw [hw]
    decide
  · decide
  · decide

/-- C1 (amended): `meetsStudentMinimums` passes iff the category is allowed
for the level and each numeric sub-check holds, where a summary with no
numeric token passes its sub-check (fail-open), but a summary whose first
numeric-ish token denotes no number (e.g. `"."`, parsed as `NaN`) fails it
(fail-closed); the wind value is 0 whenever the summary contains "calm"
case-insensitively, and otherwise comes from the token preceding "kts".
The category check is never skipped. -/
theorem c1_meets_minimums_iff :
    ∀ (student : Student) (weather : WeatherData),
      meetsStudentMinimums student weather = true ↔ amendedChecksC1 student weather := by
  intro student weather
  rw [meetsStudentMinimums, amendedChecksC1]
  rcases parseVisibilityMiles weather.visibility with _ | _ | v <;>
    rcases parseWindSpeedKts weather.winds with _ | _ | w <;>
      simp [decide_eq_true_iff, and_assoc]

/-- A non-rescheduled lesson's update is exactly "set the status to
`lessonNextStatus`": the source's replace-only-if-changed branch and the
keep branch produce the same value. -/
theorem evalLesson_eq_update (student : Student)
    (forecastMap : ℚ × ℚ → Option (List WeatherData)) (today : JsDate)
    (lesson : FlightBooking) (h : lesson.status ≠ .rescheduled) :
    evalLesson student forecastMap today lesson =
      { lesson with status := lessonNextStatus student forecastMap today lesson } := by
  rw [evalLesson, if_neg h]
  by_cases hs : lesson.status = lessonNextStatus student forecastMap today lesson
  · rw [if_pos hs, ← hs]
  · rw [if_neg hs]

/-- The scan never assigns the rescheduled status. -/
theorem lessonNextStatus_ne_rescheduled (student : Student)
    (forecastMap : ℚ × ℚ → Option (List WeatherData)) (today : JsDate)
    (lesson : FlightBooking) :
    lessonNextStatus student forecastMap today lesson ≠ .rescheduled := by
  rw [lessonNextStatus]
  by_cases hw : differenceInDays today lesson.scheduledDate < 0 ∨
      7 ≤ differenceInDays today lesson.scheduledDate
  · rw [if_pos hw]
    simp
  · rw [if_neg hw]
    cases hfind : ((forecastMap (locationKey lesson.departureLocation)).getD []).find?
        (fun entry => getDateKey entry.timestamp == getDateKey lesson.scheduledDate) with
    | none => simp only [hfind]; simp
    | some w => simp only [hfind]; split <;> simp

/-- The scan's status computation ignores the lesson's current status. -/
theorem lessonNextStatus_update (student : Student)
    (forecastMap : ℚ × ℚ → Option (List WeatherData)) (today : JsDate)
    (lesson : FlightBooking) (s : BookingStatus) :
    lessonNextStatus student forecastMap today { lesson with status := s } =
      lessonNextStatus student forecastMap today lesson := rfl

/-- Helper: `evalLesson` is idempotent. -/
theorem evalLesson_idem (student : Student)
    (forecastMap : ℚ × ℚ → Option (List WeatherData)) (today : JsDate)
    (lesson : FlightBooking) :
    evalLesson student forecastMap today (evalLesson student forecastMap today lesson) =
      evalLesson student forecastMap today lesson := by
  by_cases h : lesson.status = .rescheduled
  · have hl : evalLesson student forecastMap today lesson = lesson := by
      rw [evalLesson, if_pos h]
    rw [hl, hl]
  · rw [evalLesson_eq_update _ _ _ _ h,
      evalLesson_eq_update _ _ _ _ (by
        show lessonNextStatus student forecastMap today lesson ≠ .rescheduled
        exact lessonNextStatus_ne_rescheduled _ _ _ _)]
    rfl

/-- The `changed ? next : prev` wrapper returns the mapped list in both
branches (value-wise). -/
theorem scanStep_eq_map (student : Student)
    (forecastMap : ℚ × ℚ → Option (List WeatherData)) (today : JsDate)
    (prev : List FlightBooking) :
    scanStep student forecastMap today prev =
      prev.map (evalLesson student forecastMap today) := by
  rw [scanStep]
  by_cases h : prev.map (evalLesson student forecastMap today) = prev
  · rw [if_pos h, h]
  · rw [if_neg h]

/-- In a forecast list with pairwise-distinct date keys, `find?` on a date
key returns exactly the member carrying that key. -/
theorem find?_unique_dateKey {l : List WeatherData} {k : ℤ}
    (hnd : (l.map fun w => getDateKey w.timestamp).Nodup) {w : WeatherData}
    (hw : w ∈ l) (hk : getDateKey w.timestamp = k) :
    l.find? (fun x => getDateKey x.timestamp == k) = some w := by
  induction l with
  | nil => exact absurd hw (List.not_mem_nil w)
  | cons a l ih =>
      rw [List.map_cons, List.nodup_cons] at hnd
      by_cases ha : getDateKey a.timestamp = k
      · have hwa : w = a := by
          rcases List.mem_cons.mp hw with h | h
          · exact h
          · exfalso
            exact hnd.1 (ha ▸ hk ▸ List.mem_map_of_mem (fun x => getDateKey x.timestamp) h)
        rw [hwa, List.find?_cons_of_pos _ (by simpa using ha)]
      · have hwl : w ∈ l := by
          rcases List.mem_cons.mp hw with h | h
          · exact absurd (h ▸ hk) ha
          · exact h
        rw [List.find?_cons_of_neg _ (by simpa using ha), ih hnd.2 hwl]

/-- C3: per-booking behaviour of the conflict scan.  A rescheduled booking
is returned unchanged; a non-rescheduled booking outside the 7-day forward
window (inclusive of today, exclusive of day 7, on local calendar dates) is
forced to `scheduled`; an in-window booking whose location forecast (with
one entry per date) contains an entry matching the booking's UTC calendar
date that fails the student's minimums is set to `weather-conflict`, and is
set to `scheduled` when every matching entry passes (in particular when no
entry matches). -/
theorem c3_conflict_scan_per_booking :
    ∀ (student : Student) (forecastMap : ℚ × ℚ → Option (List WeatherData))
      (today : JsDate) (lesson : FlightBooking),
      (lesson.status = .rescheduled →
          evalLesson student forecastMap today lesson = lesson) ∧
        (lesson.status ≠ .rescheduled →
            (differenceInDays today lesson.scheduledDate < 0 ∨
                7 ≤ differenceInDays today lesson.scheduledDate) →
              evalLesson student forecastMap today lesson =
                { lesson with status := .scheduled }) ∧
          (lesson.status ≠ .rescheduled →
              0 ≤ differenceInDays today lesson.scheduledDate →
                differenceInDays today lesson.scheduledDate < 7 →
                  (((forecastMap (locationKey lesson.departureLocation)).getD []).map
                      (fun w => getDateKey w.timestamp)).Nodup →
                    ((∃ w ∈ (forecastMap (locationKey lesson.departureLocation)).getD [],
                        getDateKey w.timestamp = getDateKey lesson.scheduledDate ∧
                          meetsStudentMinimums student w = false) →
                      evalLesson student forecastMap today lesson =
                        { lesson with status := .weatherConflict }) ∧
                      ((∀ w ∈ (forecastMap (locationKey lesson.departureLocation)).getD [],
                          getDateKey w.timestamp = getDateKey lesson.scheduledDate →
                            meetsStudentMinimums student w = true) →
                        evalLesson student forecastMap today lesson =
                          { lesson with status := .scheduled })) := by
  intro student forecastMap today lesson
  have hwin : ∀ (h : lesson.status ≠ .rescheduled),
      evalLesson student forecastMap today lesson =
        { lesson with status := lessonNextStatus student forecastMap today lesson } :=
    fun h => evalLesson_eq_update student forecastMap today lesson h
  refine ⟨fun h => by rw [evalLesson, if_pos h], fun h hout => ?_, fun h h0 h7 hnd => ⟨?_, ?_⟩⟩
  · rw [hwin h, lessonNextStatus, if_pos hout]
  · rintro ⟨w, hwmem, hwkey, hwfail⟩
    have hin : ¬(differenceInDays today lesson.scheduledDate < 0 ∨
        7 ≤ differenceInDays today lesson.scheduledDate) := by omega
    rw [hwin h, lessonNextStatus, if_neg hin]
    simp only [find?_unique_dateKey hnd hwmem hwkey, hwfail]
    rfl
  · intro hall
    have hin : ¬(differenceInDays today lesson.scheduledDate < 0 ∨
        7 ≤ differenceInDays today lesson.scheduledDate) := by omega
    rw [hwin h, lessonNextStatus, if_neg hin]
    cases hfind : ((forecastMap (locationKey lesson.departureLocation)).getD []).find?
        (fun entry => getDateKey entry.timestamp == getDateKey lesson.scheduledDate) with
    | none => simp only [hfind]
    | some w =>
        have hwmem := List.mem_of_find?_eq_some hfind
        have hwkey : getDateKey w.timestamp = getDateKey lesson.scheduledDate := by
          simpa using List.find?_some hfind
        simp only [hfind, hall w hwmem hwkey]
        rfl

/-- Witness for C3: the in-window conflict conjunct at a concrete student,
forecast and booking two days out. -/
theorem c3_witness :
    evalLesson { trainingLevel := .studentPilot } (fun _ => some [c3Weather]) ⟨0, 0⟩
        c3Booking = { c3Booking with status := .weatherConflict } :=
  ((c3_conflict_scan_per_booking { trainingLevel := .studentPilot }
        (fun _ => some [c3Weather]) ⟨0, 0⟩ c3Booking).2.2
      (by decide) (by decide) (by decide) (by decide)).1
    ⟨c3Weather, by decide, by decide, by decide⟩

/-- C4: the conflict scan is idempotent and a minimal diff.  Re-running the
scan with unchanged bookings and forecast data yields the same statuses; a
booking whose status does not change is returned as the original value
(the source returns the very same object, modelled here as structural
identity); and when no status changes, the update returns the previous
collection itself (`changed ? next : prev`). -/
theorem c4_scan_idempotent_minimal_diff :
    ∀ (student : Student) (forecastMap : ℚ × ℚ → Option (List WeatherData))
      (today : JsDate),
      (∀ prev, scanStep student forecastMap today (scanStep student forecastMap today prev) =
          scanStep student forecastMap today prev) ∧
        (∀ lesson, (evalLesson student forecastMap today lesson).status = lesson.status →
            evalLesson student forecastMap today lesson = lesson) ∧
          (∀ prev, (∀ l ∈ prev, (evalLesson student forecastMap today l).status = l.status) →
              scanStep student forecastMap today prev = prev) := by
  intro student forecastMap today
  have hfix : ∀ lesson, (evalLesson student forecastMap today lesson).status = lesson.status →
      evalLesson student forecastMap today lesson = lesson := by
    intro lesson h
    by_cases hr : lesson.status = .rescheduled
    · rw [evalLesson, if_pos hr]
    · rw [evalLesson_eq_update _ _ _ _ hr] at h ⊢
      rw [show lessonNextStatus student forecastMap today lesson = lesson.status from h]
  refine ⟨fun prev => ?_, hfix, fun prev h => ?_⟩
  · simp only [scanStep_eq_map, List.map_map]
    exact List.map_congr_left fun l _ => evalLesson_idem student forecastMap today l
  · rw [scanStep_eq_map]
    calc prev.map (evalLesson student forecastMap today)
        = prev.map id := List.map_congr_left fun l hl => hfix l (h l hl)
      _ = prev := List.map_id prev

/-- Witness for C4: the no-change conjunct on a concrete singleton whose
evaluation keeps the status. -/
theorem c4_witness :
    scanStep { trainingLevel := .studentPilot } (fun _ => none) ⟨0, 0⟩ [c3Booking] =
      [c3Booking] :=
  (c4_scan_idempotent_minimal_diff { trainingLevel := .studentPilot }
      (fun _ => none) ⟨0, 0⟩).2.2 [c3Booking] (by decide)

/-- Membership in the first-occurrence dedup fold. -/
theorem mem_dedup_foldl {α : Type} [DecidableEq α] (l : List α) :
    ∀ (acc : List α) (x : α),
      x ∈ l.foldl (fun acc k => if k ∈ acc then acc else acc ++ [k]) acc ↔
        x ∈ acc ∨ x ∈ l := by
  induction l with
  | nil => simp
  | cons a l ih =>
      intro acc x
      rw [List.foldl_cons, ih]
      by_cases ha : a ∈ acc
      · rw [if_pos ha]
        constructor
        · rintro (h | h)
          · exact Or.inl h
          · exact Or.inr (List.mem_cons_of_mem a h)
        · rintro (h | h)
          · exact Or.inl h
          · rcases List.mem_cons.mp h with rfl | h
            · exact Or.inl ha
            · exact Or.inr h
      · rw [if_neg ha]
        simp only [List.mem_append, List.mem_singleton, List.mem_cons]
        tauto

/-- Helper: `dedupFirst` preserves membership. -/
theorem mem_dedupFirst {α : Type} [DecidableEq α] (l : List α) (x : α) :
    x ∈ dedupFirst l ↔ x ∈ l := by
  rw [dedupFirst, mem_dedup_foldl]
  simp

/-- Helper: `runScan` is the per-booking map of `evalLesson` under the scan's
forecast map, in both the no-relevant-lessons branch and the general
branch. -/
theorem runScan_eq_map (student : Student) (fetch : ℚ × ℚ → Option (List WeatherData))
    (today : JsDate) (prev : List FlightBooking) :
    runScan student fetch today prev =
      prev.map (evalLesson student (scanForecastMap fetch today prev) today) := by
  rw [runScan]
  cases hrel : (relevantLessons today prev).isEmpty with
  | false =>
      rw [if_neg (by simp [hrel])]
      exact scanStep_eq_map student _ today prev
  | true =>
      rw [if_pos rfl]
      have hnone : ∀ l ∈ prev, l.status = .rescheduled ∨
          differenceInDays today l.scheduledDate < 0 ∨
            7 ≤ differenceInDays today l.scheduledDate := by
        intro l hl
        by_cases hr : l.status = .rescheduled
        · exact Or.inl hr
        · by_contra hcon
          push_neg at hcon
          have hmem : l ∈ relevantLessons today prev := by
            rw [relevantLessons, List.mem_filter]
            exact ⟨hl, by
              simp only [decide_eq_true_eq]
              exact ⟨hr, by omega, by omega⟩⟩
          rw [List.isEmpty_iff] at hrel
          rw [hrel] at hmem
          exact List.not_mem_nil l hmem
      have hmap : prev.map (fun l =>
          if l.status = .rescheduled then l
          else if l.status ≠ .scheduled then { l with status := .scheduled } else l) =
            prev.map (evalLesson student (scanForecastMap fetch today prev) today) := by
        refine List.map_congr_left fun l hl => ?_
        rcases hnone l hl with hr | hw
        · rw [if_pos hr, evalLesson, if_pos hr]
        · by_cases hr : l.status = .rescheduled
          · rw [if_pos hr, evalLesson, if_pos hr]
          · rw [if_neg hr, evalLesson_eq_update _ _ _ _ hr, lessonNextStatus, if_pos hw]
            by_cases hs : l.status = .scheduled
            · rw [if_neg (by simp [hs]), ← hs]
            · rw [if_pos hs]
      rw [hmap]
      by_cases heq : prev.map (evalLesson student (scanForecastMap fetch today prev) today) = prev
  
      · rw [if_pos heq, heq]
      · rw [if_neg heq]

/-- C7 counterexample: with the only location's forecast fetch failing
(`fetch = fun _ => none`), the scan does not leave the affected booking's
status unchanged: the failed fetch degrades to an empty forecast list, no
entry matches the booking's date, and the booking's prior
`weather-conflict` status is rewritten to `scheduled`. -/
theorem c7_counterexample :
    runScan { trainingLevel := .studentPilot } (fun _ => none) ⟨0, 0⟩ [c7Booking] =
        [{ c7Booking with status := .scheduled }] ∧
      c7Booking.status ≠ .scheduled := by
  constructor
  · rw [runScan_eq_map]
    decide
  · decide

/-- C7 (amended): a failed forecast fetch for one location does not abort
evaluation of bookings at other locations — the scan result is a
per-booking map, and each non-rescheduled in-window booking's result
depends only on the fetch outcome at its own location key — but the
bookings at the failed location do not keep their previous status: they
are evaluated against an empty forecast list and set to `scheduled`. -/
theorem c7_per_location_isolation :
    (∀ (student : Student) (fetch fetch' : ℚ × ℚ → Option (List WeatherData))
        (today : JsDate) (prev : List FlightBooking),
        (∀ l ∈ prev, l.status ≠ .rescheduled →
            0 ≤ differenceInDays today l.scheduledDate →
              differenceInDays today l.scheduledDate < 7 →
                fetch (locationKey l.departureLocation) =
                  fetch' (locationKey l.departureLocation)) →
          runScan student fetch today prev = runScan student fetch' today prev) ∧
      (∀ (student : Student) (fetch : ℚ × ℚ → Option (List WeatherData))
          (today : JsDate) (prev : List FlightBooking) (l : FlightBooking),
          l ∈ prev → l.status ≠ .rescheduled →
            0 ≤ differenceInDays today l.scheduledDate →
              differenceInDays today l.scheduledDate < 7 →
                fetch (locationKey l.departureLocation) = none →
                  evalLesson student (scanForecastMap fetch today prev) today l =
                    { l with status := .scheduled }) := by
  have hkey : ∀ (fetch : ℚ × ℚ → Option (List WeatherData)) (today : JsDate)
      (prev : List FlightBooking) (l : FlightBooking), l ∈ prev →
        l.status ≠ .rescheduled → 0 ≤ differenceInDays today l.scheduledDate →
          differenceInDays today l.scheduledDate < 7 →
            scanForecastMap fetch today prev (locationKey l.departureLocation) =
              some ((fetch (locationKey l.departureLocation)).getD []) := by
    intro fetch today prev l hl hr h0 h7
    have hmem : l ∈ relevantLessons today prev := by
      rw [relevantLessons, List.mem_filter]
      exact ⟨hl, by
        simp only [decide_eq_true_eq]
        exact ⟨hr, h0, h7⟩⟩
    have hk : locationKey l.departureLocation ∈
        uniqueLocationKeys (relevantLessons today prev) := by
      rw [uniqueLocationKeys, mem_dedupFirst]
      exact List.mem_map_of_mem _ hmem
    rw [scanForecastMap, if_pos hk]
  constructor
  · intro student fetch fetch' today prev hagree
    rw [runScan_eq_map, runScan_eq_map]
    refine List.map_congr_left fun l hl => ?_
    by_cases hr : l.status = .rescheduled
    · rw [evalLesson, if_pos hr, evalLesson, if_pos hr]
    · by_cases hw : differenceInDays today l.scheduledDate < 0 ∨
          7 ≤ differenceInDays today l.scheduledDate
      · rw [evalLesson_eq_update _ _ _ _ hr, evalLesson_eq_update _ _ _ _ hr,
          lessonNextStatus, if_pos hw, lessonNextStatus, if_pos hw]
      · push_neg at hw
        rw [evalLesson_eq_update _ _ _ _ hr, evalLesson_eq_update _ _ _ _ hr,
          lessonNextStatus, if_neg (by omega), lessonNextStatus, if_neg (by omega)]
        have h1 := hkey fetch today prev l hl hr (by omega) (by omega)
        have h2 := hkey fetch' today prev l hl hr (by omega) (by omega)
        rw [h1, h2, hagree l hl hr (by omega) (by omega)]
  · intro student fetch today prev l hl hr h0 h7 hfail
    rw [evalLesson_eq_update _ _ _ _ hr, lessonNextStatus, if_neg (by omega),
      hkey fetch today prev l hl hr h0 h7, hfail]
    rfl

/-- Witness for C7: the failed-location conjunct at a concrete booking and
an always-failing fetch. -/
theorem c7_witness :
    evalLesson { trainingLevel := .studentPilot }
        (scanForecastMap (fun _ => none) ⟨0, 0⟩ [c7Booking]) ⟨0, 0⟩ c7Booking =
      { c7Booking with status := .scheduled } :=
  c7_per_location_isolation.2 { trainingLevel := .studentPilot } (fun _ => none)
    ⟨0, 0⟩ [c7Booking] c7Booking (by decide) (by decide) (by decide) (by decide) rfl

/-- Appending an entry to the grouped list appends it to its key's bucket
when the key is present. -/
theorem groupInsert_mem (k : ℕ) (e : OWEntry) (keys : List ℕ)
    (f : ℕ → List OWEntry) (hnd : keys.Nodup) (hk : k ∈ keys) :
    groupInsert k e (keys.map fun j => (j, f j)) =
      keys.map fun j => (j, if j = k then f j ++ [e] else f j) := by
  induction keys with
  | nil => exact absurd hk (List.not_mem_nil k)
  | cons a keys ih =>
      rw [List.nodup_cons] at hnd
      rw [List.map_cons, List.map_cons, groupInsert]
      by_cases hak : a = k
      · rw [if_pos hak, if_pos hak]
        have hrest : keys.map (fun j => (j, if j = k then f j ++ [e] else f j)) =
            keys.map fun j => (j, f j) := by
          refine List.map_congr_left fun j hj => ?_
          have hjk : j ≠ k := fun hjk => hnd.1 (by rw [hak, ← hjk]; exact hj)
          rw [if_neg hjk]
        rw [hrest]
      · rw [if_neg hak, if_neg hak,
          ih hnd.2 (by rcases List.mem_cons.mp hk with h | h; exact absurd h.symm hak; exact h)]

/-- Appending an entry with a fresh key adds a new bucket at the end. -/
theorem groupInsert_not_mem (k : ℕ) (e : OWEntry) (grouped : List (ℕ × List OWEntry))
    (hk : k ∉ grouped.map Prod.fst) :
    groupInsert k e grouped = grouped ++ [(k, [e])] := by
  induction grouped with
  | nil => rfl
  | cons a grouped ih =>
      rw [List.map_cons, List.mem_cons] at hk
      push_neg at hk
      cases a with
      | mk a1 a2 =>
          rw [groupInsert, if_neg fun h => hk.1 h.symm, List.cons_append, ih hk.2]

/-- Helper: `dedupFirst` over a snoc. -/
theorem dedupFirst_concat {α : Type} [DecidableEq α] (l : List α) (k : α) :
    dedupFirst (l ++ [k]) =
      if k ∈ dedupFirst l then dedupFirst l else dedupFirst l ++ [k] := by
  rw [dedupFirst, dedupFirst, List.foldl_append]
  rfl

/-- Helper: `dedupFirst` yields pairwise-distinct elements. -/
theorem dedupFirst_nodup {α : Type} [DecidableEq α] (l : List α) :
    (dedupFirst l).Nodup := by
  suffices h : ∀ acc : List α, acc.Nodup →
      (l.foldl (fun acc k => if k ∈ acc then acc else acc ++ [k]) acc).Nodup by
    exact h [] List.nodup_nil
  induction l with
  | nil => exact fun acc h => h
  | cons a l ih =>
      intro acc hacc
      rw [List.foldl_cons]
      by_cases ha : a ∈ acc
      · rw [if_pos ha]
        exact ih acc hacc
      · rw [if_neg ha]
        refine ih _ ?_
        rw [List.nodup_append]
        exact ⟨hacc, List.nodup_singleton a, by simpa using ha⟩

/-- The grouping loop of `fetchWeatherForecast` computes, in
first-occurrence key order, the bucket of all entries of each UTC date. -/
theorem groupByDay_eq (entries : List OWEntry) :
    groupByDay entries =
      (dedupFirst (entries.map dayOf)).map fun k =>
        (k, entries.filter fun e => dayOf e == k) := by
  induction entries using List.reverseRecOn with
  | nil => rfl
  | append_singleton l e ih =>
      have hstep : groupByDay (l ++ [e]) = groupInsert (dayOf e) e (groupByDay l) := by
        rw [groupByDay, groupByDay, List.foldl_append]
        rfl
      rw [hstep, ih, List.map_append, List.map_singleton, dedupFirst_concat]
      by_cases hmem : dayOf e ∈ dedupFirst (l.map dayOf)
      · rw [if_pos hmem,
          groupInsert_mem (dayOf e) e _ _ (dedupFirst_nodup (l.map dayOf)) hmem]
        refine List.map_congr_left fun k hk => ?_
        rw [List.filter_append]
        by_cases hke : k = dayOf e
        · rw [if_pos hke, List.filter_cons, if_pos (by simp [hke]), List.filter_nil]
        · rw [if_neg hke, List.filter_cons,
            if_neg (by simpa using fun h => hke h.symm), List.filter_nil, List.append_nil]
      · have hmem' : dayOf e ∉ l.map dayOf := fun h => hmem ((mem_dedupFirst _ _).mpr h)
        rw [if_neg hmem, groupInsert_not_mem _ _ _ (by
          intro hcon
          rw [List.map_map] at hcon
          exact hmem (by simpa using hcon))]
        have hlast : (l ++ [e]).filter (fun x => dayOf x == dayOf e) = [e] := by
          rw [List.filter_append, List.filter_cons, if_pos (by simp), List.filter_nil,
            List.filter_eq_nil_iff.mpr ?_, List.nil_append]
          intro a ha
          simp only [beq_iff_eq]
          intro hda
          exact hmem' (hda ▸ List.mem_map_of_mem dayOf ha)
        rw [List.map_append, List.map_singleton, hlast]
        congr 1
        refine List.map_congr_left fun k hk => ?_
        rw [List.filter_append, List.filter_cons, if_neg ?_, List.filter_nil, List.append_nil]
        simp only [beq_iff_eq]
        intro hde
        exact hmem (hde ▸ hk)

/-- Helper: `clampDays` is at least 1. -/
theorem one_le_clampDays (days : ℤ) : 1 ≤ clampDays days := by
  rw [clampDays]
  omega

/-- A successful `mapM` over `Option` preserves length. -/
theorem mapM_option_length {α β : Type} (f : α → Option β) :
    ∀ (l : List α) (out : List β), l.mapM f = some out → out.length = l.length := by
  intro l
  induction l with
  | nil =>
      intro out h
      cases h
      rfl
  | cons a l ih =>
      intro out h
      rw [List.mapM_cons] at h
      cases hfa : f a with
      | none => rw [hfa] at h; cases h
      | some b =>
          rw [hfa] at h
          cases hfl : l.mapM f with
          | none => rw [hfl] at h; cases h
          | some bs =>
              rw [hfl] at h
              cases h
              rw [List.length_cons, ih bs hfl, List.length_cons]

/-- The emit loop of `fetchWeatherForecast` equals normalize-after-take:
it stops as soon as `maxDays` summaries exist, so only the first
`maxDays - acc.length` representatives are normalized and emitted. -/
theorem emitLoop_eq_take (tz : ℤ) (maxDays : ℕ) :
    ∀ (groups : List (ℕ × List OWEntry)) (acc : List WeatherData),
      acc.length < maxDays →
        emitLoop tz maxDays groups acc =
          (((groups.map fun g => pickRepresentative g.2).take (maxDays - acc.length)).mapM
              (mapForecastEntry tz)).map (acc ++ ·) := by
  intro groups
  induction groups with
  | nil =>
      intro acc hacc
      simp [emitLoop,
        show List.mapM.loop (mapForecastEntry tz) [] [] = some [] from rfl]
  | cons g rest ih =>
      intro acc hacc
      obtain ⟨k, dayEntries⟩ := g
      obtain ⟨n, hn⟩ : ∃ n, maxDays - acc.length = n + 1 :=
        ⟨maxDays - acc.length - 1, by omega⟩
      rw [emitLoop, List.map_cons, hn, List.take_succ_cons, List.mapM_cons]
      cases hnorm : mapForecastEntry tz (pickRepresentative dayEntries) with
      | none => simp [hnorm]
      | some w =>
          simp only [hnorm, Option.bind_some]
          by_cases hstop : maxDays ≤ (acc ++ [w]).length
          · rw [if_pos hstop]
            have hz : n = 0 := by
              rw [List.length_append, List.length_singleton] at hstop
              omega
            rw [hz, List.take_zero, List.mapM_nil]
            simp
          · rw [if_neg hstop]
            have hlen : (acc ++ [w]).length < maxDays := by
              rw [List.length_append, List.length_singleton]
              rw [List.length_append, List.length_singleton] at hstop
              omega
            rw [ih (acc ++ [w]) hlen]
            have harith : maxDays - (acc ++ [w]).length = n := by
              rw [List.length_append, List.length_singleton]
              omega
            rw [harith]
            cases hrest : ((rest.map fun g => pickRepresentative g.2).take n).mapM
                (mapForecastEntry tz) with
            | none => simp [hrest]
            | some ws => simp [hrest, List.append_assoc]

/-- The pure forecast core refines the spec-side description: group by UTC
date in first-occurrence order, pick representatives, normalize, emit at
most the clamped day count. -/
theorem fetchCore_eq_spec (tz : ℤ) (entries : List OWEntry) (days : ℤ) :
    fetchWeatherForecastCore tz entries days = specSummarize tz entries days := by
  rw [fetchWeatherForecastCore,
    emitLoop_eq_take tz (clampDays days) (groupByDay entries) []
      (by simpa using one_le_clampDays days),
    groupByDay_eq, List.map_map]
  simp only [List.length_nil, Nat.sub_zero, specSummarize, Function.comp]
  cases h : (((dedupFirst (entries.map dayOf)).map fun k =>
      pickRepresentative (entries.filter fun e => dayOf e == k)).take
        (clampDays days)).mapM (mapForecastEntry tz) with
  | none =>
      show Option.map (fun x : List WeatherData => [] ++ x)
          ((((dedupFirst (entries.map dayOf)).map fun k =>
            pickRepresentative (entries.filter fun e => dayOf e == k)).take
              (clampDays days)).mapM (mapForecastEntry tz)) = none
      rw [h]
      rfl
  | some out =>
      show Option.map (fun x : List WeatherData => [] ++ x)
          ((((dedupFirst (entries.map dayOf)).map fun k =>
            pickRepresentative (entries.filter fun e => dayOf e == k)).take
              (clampDays days)).mapM (mapForecastEntry tz)) = some out
      rw [h]
      rfl

/-- UTC day of a week-run entry. -/
theorem dayOf_mk (d j : ℕ) (hj : j < 8) :
    dayOf (mkOWEntry (d * 86400 + j * 10800)) = d := by
  show (d * 86400 + j * 10800) / 86400 = d
  omega

/-- UTC hour of a week-run entry. -/
theorem hourOf_mk (d j : ℕ) (hj : j < 8) :
    hourOf (mkOWEntry (d * 86400 + j * 10800)) = 3 * j := by
  show (d * 86400 + j * 10800) % 86400 / 3600 = 3 * j
  omega

/-- Afternoon-window test on a week-run entry, in terms of its step index. -/
theorem window_mk (d j : ℕ) (hj : j < 8) :
    inAfternoonWindow (mkOWEntry (d * 86400 + j * 10800)) =
      (decide (15 ≤ 3 * j) && decide (3 * j ≤ 21)) := by
  rw [inAfternoonWindow, hourOf_mk d j hj]

/-- The day projection of a week run is constant. -/
theorem map_dayOf_weekRun (d : ℕ) :
    (weekDayRun d).map dayOf = List.replicate 8 d := by
  rw [weekDayRun, List.map_map]
  have h : (List.range 8).map (dayOf ∘ fun j => mkOWEntry (d * 86400 + j * 10800)) =
      (List.range 8).map fun _ => d :=
    List.map_congr_left fun j hj => dayOf_mk d j (List.mem_range.mp hj)
  rw [h, List.map_const', List.length_range]

/-- Filtering a week run by a day key keeps all of it or none of it. -/
theorem filter_weekRun (d k : ℕ) :
    (weekDayRun d).filter (fun e => dayOf e == k) =
      if d = k then weekDayRun d else [] := by
  by_cases hdk : d = k
  · rw [if_pos hdk]
    refine List.filter_eq_self.mpr fun e he => ?_
    obtain ⟨j, hj, rfl⟩ := List.mem_map.mp he
    rw [dayOf_mk d j (List.mem_range.mp hj)]
    simp [hdk]
  · rw [if_neg hdk]
    refine List.filter_eq_nil_iff.mpr fun e he => ?_
    obtain ⟨j, hj, rfl⟩ := List.mem_map.mp he
    rw [dayOf_mk d j (List.mem_range.mp hj)]
    simp [hdk]

/-- The representative of a week run is its hour-15 entry (step index 5). -/
theorem pick_weekRun (d : ℕ) :
    pickRepresentative (weekDayRun d) = mkOWEntry (d * 86400 + 54000) := by
  have h0 : inAfternoonWindow (mkOWEntry (d * 86400 + 0 * 10800)) = false := by
    rw [window_mk d 0 (by omega)]
    rfl
  have h1 : inAfternoonWindow (mkOWEntry (d * 86400 + 1 * 10800)) = false := by
    rw [window_mk d 1 (by omega)]
    rfl
  have h2 : inAfternoonWindow (mkOWEntry (d * 86400 + 2 * 10800)) = false := by
    rw [window_mk d 2 (by omega)]
    rfl
  have h3 : inAfternoonWindow (mkOWEntry (d * 86400 + 3 * 10800)) = false := by
    rw [window_mk d 3 (by omega)]
    rfl
  have h4 : inAfternoonWindow (mkOWEntry (d * 86400 + 4 * 10800)) = false := by
    rw [window_mk d 4 (by omega)]
    rfl
  have h5 : inAfternoonWindow (mkOWEntry (d * 86400 + 5 * 10800)) = true := by
    rw [window_mk d 5 (by omega)]
    rfl
  have hrun : weekDayRun d =
      [mkOWEntry (d * 86400 + 0 * 10800), mkOWEntry (d * 86400 + 1 * 10800),
        mkOWEntry (d * 86400 + 2 * 10800), mkOWEntry (d * 86400 + 3 * 10800),
        mkOWEntry (d * 86400 + 4 * 10800), mkOWEntry (d * 86400 + 5 * 10800),
        mkOWEntry (d * 86400 + 6 * 10800), mkOWEntry (d * 86400 + 7 * 10800)] := rfl
  rw [pickRepresentative, hrun, List.find?_cons_of_neg _ (by rw [h0]; simp),
    List.find?_cons_of_neg _ (by rw [h1]; simp), List.find?_cons_of_neg _ (by rw [h2]; simp),
    List.find?_cons_of_neg _ (by rw [h3]; simp), List.find?_cons_of_neg _ (by rw [h4]; simp),
    List.find?_cons_of_pos _ (by rw [h5])]
  rfl

/-- Folding the dedup step over a nonempty run of equal elements inserts
the element once. -/
theorem foldl_dedup_replicate {α : Type} [DecidableEq α] (k : α) :
    ∀ (n : ℕ), 0 < n → ∀ (acc : List α),
      (List.replicate n k).foldl (fun acc k => if k ∈ acc then acc else acc ++ [k]) acc =
        if k ∈ acc then acc else acc ++ [k] := by
  have habsorb : ∀ (n : ℕ) (acc : List α), k ∈ acc →
      (List.replicate n k).foldl (fun acc k => if k ∈ acc then acc else acc ++ [k]) acc =
        acc := by
    intro n
    induction n with
    | zero => intro acc _; rfl
    | succ n ih =>
        intro acc hk
        rw [List.replicate_succ, List.foldl_cons, if_pos hk]
        exact ih acc hk
  intro n hn acc
  cases n with
  | zero => omega
  | succ n =>
      rw [List.replicate_succ, List.foldl_cons]
      by_cases hk : k ∈ acc
      · rw [if_pos hk]
        exact habsorb n acc hk
      · rw [if_neg hk]
        exact habsorb n (acc ++ [k]) (by simp)

/-- First-occurrence day keys of the 7-day week input, in ascending order. -/
theorem dedup_week_keys (d0 : ℕ) :
    dedupFirst ((mkWeekEntries d0).map dayOf) =
      [d0, d0 + 1, d0 + 2, d0 + 3, d0 + 4, d0 + 5, d0 + 6] := by
  rw [mkWeekEntries, dedupFirst]
  simp only [List.map_append, map_dayOf_weekRun, List.foldl_append]
  rw [foldl_dedup_replicate d0 8 (by omega) [],
    if_neg (by simp)]
  rw [foldl_dedup_replicate (d0 + 1) 8 (by omega) _,
    if_neg (by simp)]
  rw [foldl_dedup_replicate (d0 + 2) 8 (by omega) _,
    if_neg (by simp)]
  rw [foldl_dedup_replicate (d0 + 3) 8 (by omega) _,
    if_neg (by simp)]
  rw [foldl_dedup_replicate (d0 + 4) 8 (by omega) _,
    if_neg (by simp)]
  rw [foldl_dedup_replicate (d0 + 5) 8 (by omega) _,
    if_neg (by simp)]
  rw [foldl_dedup_replicate (d0 + 6) 8 (by omega) _,
    if_neg (by simp)]
  rfl

/-- Filtering the week input by its first day's key yields the first run. -/
theorem filter_week_day0 (d0 : ℕ) :
    (mkWeekEntries d0).filter (fun e => dayOf e == d0) = weekDayRun d0 := by
  rw [mkWeekEntries]
  simp only [List.filter_append, filter_weekRun]
  have h1 : d0 + 1 ≠ d0 := by omega
  have h2 : d0 + 2 ≠ d0 := by omega
  have h3 : d0 + 3 ≠ d0 := by omega
  have h4 : d0 + 4 ≠ d0 := by omega
  have h5 : d0 + 5 ≠ d0 := by omega
  have h6 : d0 + 6 ≠ d0 := by omega
  simp [h1, h2, h3, h4, h5, h6]

/-- Filtering the week input by its second day's key yields the second run. -/
theorem filter_week_day1 (d0 : ℕ) :
    (mkWeekEntries d0).filter (fun e => dayOf e == d0 + 1) = weekDayRun (d0 + 1) := by
  rw [mkWeekEntries]
  simp only [List.filter_append, filter_weekRun]
  have h0 : d0 ≠ d0 + 1 := by omega
  have h2 : d0 + 2 ≠ d0 + 1 := by omega
  have h3 : d0 + 3 ≠ d0 + 1 := by omega
  have h4 : d0 + 4 ≠ d0 + 1 := by omega
  have h5 : d0 + 5 ≠ d0 + 1 := by omega
  have h6 : d0 + 6 ≠ d0 + 1 := by omega
  simp [h0, h2, h3, h4, h5, h6]

/-- Filtering the week input by its third day's key yields the third run. -/
theorem filter_week_day2 (d0 : ℕ) :
    (mkWeekEntries d0).filter (fun e => dayOf e == d0 + 2) = weekDayRun (d0 + 2) := by
  rw [mkWeekEntries]
  simp only [List.filter_append, filter_weekRun]
  have h0 : d0 ≠ d0 + 2 := by omega
  have h1 : d0 + 1 ≠ d0 + 2 := by omega
  have h3 : d0 + 3 ≠ d0 + 2 := by omega
  have h4 : d0 + 4 ≠ d0 + 2 := by omega
  have h5 : d0 + 5 ≠ d0 + 2 := by omega
  have h6 : d0 + 6 ≠ d0 + 2 := by omega
  simp [h0, h1, h3, h4, h5, h6]

/-- C5: the forecast aggregation groups entries by UTC calendar date in
first-occurrence order, selects per date the first entry with UTC hour in
[15, 21] (falling back to the floor-midpoint entry), normalizes the
selection, and emits at most `clamp(days, 1, 7)` readings in date order,
stopping once that many are produced; on a 7-day, 8-entries-per-day input
with `days = 3` it returns exactly 3 readings, one per distinct calendar
date, in ascending date order, each taken from the 15:00 UTC step. -/
theorem c5_forecast_aggregator :
    (∀ (tz : ℤ) (entries : List OWEntry) (days : ℤ),
        fetchWeatherForecastCore tz entries days = specSummarize tz entries days) ∧
      (∀ (tz : ℤ) (entries : List OWEntry) (days : ℤ),
          (fetchWeatherForecastCore tz entries days).elim True
            fun out => out.length ≤ clampDays days) ∧
        (∀ (tz : ℤ) (d0 : ℕ),
            fetchWeatherForecastCore tz (mkWeekEntries d0) 3 =
              some
                [{ temperature := 0, winds := "Calm", visibility := "N/A", sky := "Clear",
                   conditions := .VFR, timestamp := mkJsDate tz (d0 * 86400 + 54000) },
                  { temperature := 0, winds := "Calm", visibility := "N/A", sky := "Clear",
                    conditions := .VFR, timestamp := mkJsDate tz ((d0 + 1) * 86400 + 54000) },
                  { temperature := 0, winds := "Calm", visibility := "N/A", sky := "Clear",
                    conditions := .VFR, timestamp := mkJsDate tz ((d0 + 2) * 86400 + 54000) }]) := by
  refine ⟨fetchCore_eq_spec, fun tz entries days => ?_, fun tz d0 => ?_⟩
  · rw [fetchCore_eq_spec, specSummarize]
    cases h : (((dedupFirst (entries.map dayOf)).map fun k =>
        pickRepresentative (entries.filter fun e => dayOf e == k)).take
          (clampDays days)).mapM (mapForecastEntry tz) with
    | none => exact trivial
    | some out =>
        show out.length ≤ clampDays days
        rw [mapM_option_length _ _ _ h, List.length_take]
        exact min_le_left _ _
  · rw [fetchCore_eq_spec, specSummarize, dedup_week_keys,
      show clampDays 3 = 3 from rfl]
    simp only [List.map_cons, List.map_nil, List.take_succ_cons, List.take_zero]
    rw [filter_week_day0, filter_week_day1, filter_week_day2, pick_weekRun, pick_weekRun,
      pick_weekRun]
    rfl
